import Mathlib

/-!
Verification development for the worktree-add tool: a shallow embedding of its
branch-name normalization, remote-sync classification, destination-conflict
resolution, orchestration/rollback, interrupt handling and option resolution,
with theorems checking the documented properties against the embedded code.

JavaScript string primitives (`trim`, `split`, `toLowerCase`, anchored prefix
`replace`) are embedded as structural functions on character lists so that all
definitions evaluate by kernel reduction.  Subprocess calls (git, trash,
prompts) are effectful boundaries: their outcomes are supplied by explicit
oracle records, their invocations are recorded in an effect trace, and thrown
JavaScript exceptions are `Except.error` carrying the message string.
-/

namespace WorktreeAdd

/-- JavaScript `String.prototype.trim`: drop surrounding whitespace. -/
def jsTrim (s : String) : String :=
  ⟨(((s.data.dropWhile Char.isWhitespace).reverse).dropWhile Char.isWhitespace).reverse⟩

/-- Anchored `replace(/^pat/u, "")`: strip `p` from the front of `s` when present
(at most once), otherwise return `s` unchanged. -/
def stripLeading (p s : String) : String :=
  if p.data.isPrefixOf s.data then ⟨s.data.drop p.data.length⟩ else s

/-- JavaScript `split` with a single-character separator (keeps empty pieces). -/
def splitOnChar (sep : Char) : List Char → List (List Char)
  | [] => [[]]
  | c :: rest =>
    let r := splitOnChar sep rest
    if c = sep then [] :: r
    else
      match r with
      | [] => [[c]]
      | h :: t => (c :: h) :: t

/-- JavaScript `String.prototype.split` on a one-character separator. -/
def jsSplit (s : String) (sep : Char) : List String :=
  (splitOnChar sep s.data).map (fun l => ⟨l⟩)

/-- JavaScript `String.prototype.toLowerCase` (ASCII-relevant part). -/
def jsToLower (s : String) : String := ⟨s.data.map Char.toLower⟩

/-- Whether `p` occurs at the start of `s` (JavaScript `startsWith`). -/
def jsStartsWith (p s : String) : Bool := p.data.isPrefixOf s.data

/-! ## src/git/git.ts -/

/-- `normalizeBranchName` from src/git/git.ts: trim surrounding whitespace and
strip, in this order, each of the anchored prefixes `refs/heads/`,
`refs/remotes/origin/`, `remotes/origin/`, `origin/` (each at most once). -/
def normalizeBranchName (name : String) : String :=
  let trimmed := jsTrim name
  stripLeading "origin/"
    (stripLeading "remotes/origin/"
      (stripLeading "refs/remotes/origin/"
        (stripLeading "refs/heads/" trimmed)))

/-- The decision core of `confirm` from src/git/git.ts: the prompt answer is
trimmed and lowercased, and only "y" or "yes" count as confirmation. -/
def confirmAccepts (answer : String) : Bool :=
  let normalized := jsToLower (jsTrim answer)
  normalized = "y" || normalized = "yes"

/-- `remoteBranchExists` from src/git/git.ts: run
`git ls-remote --heads origin <branch>` and coerce the trimmed stdout to a
boolean; every failure of the command is caught and becomes `false`.
`lsRemote` is the command's outcome (stdout, or the thrown error). -/
def remoteBranchExists (lsRemote : Except String String) : Bool :=
  match lsRemote with
  | .ok out => out ≠ ""
  | .error _ => false

/-! ## src/app/resolve-apps.ts -/

/-- `dedupePreserveOrder` from src/app/resolve-apps.ts: drop repeated entries,
keeping first occurrences in order. -/
def dedupePreserveOrder (apps : List String) : List String :=
  (apps.foldl
    (fun (acc : List String × List String) app =>
      if acc.1.contains app then acc else (app :: acc.1, acc.2 ++ [app]))
    ([], [])).2

/-- The environment-variable fallback inside `resolveApps`: trim the variable,
and when nonempty split on commas, trim entries, drop empties and dedupe. -/
def resolveAppsFromEnvironment (environmentApps : Option String) : List String :=
  let normalized := jsTrim (environmentApps.getD "")
  if normalized ≠ "" then
    dedupePreserveOrder
      (((jsSplit normalized ',').map jsTrim).filter (fun app => app ≠ ""))
  else []

/-- `resolveApps` from src/app/resolve-apps.ts.  `optionApps = none` models an
entirely absent `--app` flag; `environmentApps = none` models an unset
app-list environment variable. -/
def resolveApps (optionApps : Option (List String)) (environmentApps : Option String) :
    List String :=
  let hasExplicitEmptyOption := (optionApps.map (fun l => l.contains "")).getD false
  let normalizedOptionApps := ((optionApps.getD []).map jsTrim).filter (fun app => app ≠ "")
  match optionApps with
  | some _ =>
    if normalizedOptionApps.length > 0 then dedupePreserveOrder normalizedOptionApps
    else if hasExplicitEmptyOption then []
    else resolveAppsFromEnvironment environmentApps
  | none => resolveAppsFromEnvironment environmentApps

/-! ## src/git/extract-diagnostic-line.ts -/

/-- Whether the character list begins with `fatal:` or `error:` (already
lowercased by the caller, mirroring the regex `i` flag). -/
def markerHere (cs : List Char) : Bool :=
  "fatal:".data.isPrefixOf cs || "error:".data.isPrefixOf cs

/-- Whether `fatal:`/`error:` occurs immediately after a whitespace character
somewhere in the list (the `(?:^|\s)` alternative of the source regex). -/
def markerAfterBlank : List Char → Bool
  | [] => false
  | c :: rest => (c.isWhitespace && markerHere rest) || markerAfterBlank rest

/-- The test `/(?:^|\s)(?:fatal:|error:)/iu.test(line)` from
src/git/extract-diagnostic-line.ts. -/
def containsDiagnosticMarker (line : String) : Bool :=
  let lower := (jsToLower line).data
  markerHere lower || markerAfterBlank lower

/-- `extractDiagnosticLine` from src/git/extract-diagnostic-line.ts, applied to
the thrown error's message (errors are modelled as their message strings):
prefer the first trimmed non-empty line bearing a fatal/error marker, fall back
to the last non-empty line, then to the whole trimmed message. -/
def extractDiagnosticLine (message : String) : String :=
  let trimmed := jsTrim message
  let nonEmptyLines := ((jsSplit trimmed '\n').map jsTrim).filter (fun l => l ≠ "")
  match nonEmptyLines.find? containsDiagnosticMarker with
  | some line => line
  | none => nonEmptyLines.getLast?.getD trimmed

/-! ## Effects

Every observable action of the embedded code — status-logger channel calls,
console output, prompts, and each mutating or reading subprocess/filesystem
call the modules import (`git worktree list/prune/add/remove`, `git branch -f`,
`trash`, `process.exit`, the SIGINT handler registration) — is recorded as one
constructor of `Eff` in an append-only trace.  The modules call no other
destructive primitive (in particular no permanent file deletion), so the trace
vocabulary is exactly the code's possible actions. -/

inductive Eff
  | logStep (message : String)
  | logSuccess (message : String)
  | logDetail (message : String)
  | logWarn (message : String)
  | consoleError (message : String)
  | confirmPrompt (message : String)
  | gitWorktreeList
  | trashDir (path : String)
  | gitWorktreePrune
  | gitBranchForce (branch : String)
  | registerSigint
  | unregisterSigint
  | worktreeAdd (path : String)
  | removeWorktree (path : String)
  | exitProcess (code : Nat)
deriving DecidableEq

/-! ## src/git/fetch-remote-branch.ts -/

/-- The four-way `RemoteBranchStatus` string union from
src/git/fetch-remote-branch.ts. -/
inductive RemoteBranchStatus
  | exists
  | missing
  | unknown
  | diverged
deriving DecidableEq

/-- `FetchRemoteBranchResult`: `divergence` is `some (ahead, behind)` exactly
in the diverged variant, `none` (TS `undefined`) otherwise. -/
structure FetchRemoteBranchResult where
  status : RemoteBranchStatus
  localExists : Bool
  divergence : Option (Nat × Nat)
deriving DecidableEq

/-- The git ref store touched by classification: the commit at
`refs/heads/<branch>` and at `refs/remotes/origin/<branch>` (the latter as it
stands after the fetch; `none` models an unresolvable ref). -/
structure GitState where
  localHead : Option String
  remoteTrackingHead : Option String
deriving DecidableEq

/-- Outcomes of the external commands one classification run issues:
`lsRemote` is `git ls-remote --heads origin <branch>` (trimmed stdout or the
thrown error), `fetchResult` is `git fetch origin <refspec>`, `aheadBehind`
is `git rev-list --left-right --count` as parsed by `getAheadBehindCounts`,
and `activeWorktree` is `findWorktreeByBranchName` (the worktree path holding
the branch checked out, if any). -/
structure FetchEnv where
  lsRemote : Except String String
  fetchResult : Except String Unit
  aheadBehind : Except String (Nat × Nat)
  activeWorktree : Option String

def wouldFetchStep (n : String) : String := "Would fetch origin/" ++ n

def dryRunFFDetail (n : String) : String :=
  "Dry run: local '" ++ n ++ "' may be fast-forwarded after fetch if it is behind origin/" ++
    n ++ "."

def dryRunDivergenceDetail : String :=
  "Dry run does not check local/remote divergence because it skips fetch; a real run may stop with a divergence error."

def fetchingStep (n : String) : String := "Fetching origin/" ++ n ++ " …"

def fetchFailedWarn (n diagnostic : String) : String :=
  "Failed to fetch origin/" ++ n ++ ": " ++ diagnostic ++
    ". Using existing local branch (origin status unknown)."

def compareFailedWarn (n diagnostic : String) : String :=
  "Failed to compare local '" ++ n ++ "' with origin/" ++ n ++ ": " ++ diagnostic ++
    ". Using existing local branch as-is."

def checkedOutWarn (n activeWorktree : String) : String :=
  "Local branch '" ++ n ++ "' is checked out in " ++ activeWorktree ++
    "; skipping fast-forward."

def ffDetailMsg (n localHead remoteHead : String) : String :=
  "Fast-forwarding '" ++ n ++ "' from " ++ localHead ++ " to " ++ remoteHead ++ "."

def ffStepMsg (n : String) : String :=
  "Fast-forwarding local '" ++ n ++ "' to origin/" ++ n ++ " …"

def zeroZeroWarn (n : String) : String :=
  "Local branch '" ++ n ++ "' differs from origin/" ++ n ++
    ", but Git reports no ahead/behind differences. Using existing local branch; if you encounter issues, try re-cloning the repository."

def aheadOnlyWarn (n : String) (ahead : Nat) : String :=
  "Local branch '" ++ n ++ "' is ahead of origin/" ++ n ++ " (ahead by " ++ toString ahead ++
    "); using existing local branch as-is."

def fatalFetchMessage (n diagnostic : String) : String :=
  "Failed to fetch origin/" ++ n ++ ": " ++ diagnostic ++
    ". Cannot proceed without a local branch."

/-- `fetchRemoteBranch` from src/git/fetch-remote-branch.ts.  `localBranchExists`
is `st.localHead.isSome` (`git show-ref --verify` succeeding exactly when the
ref resolves).  The source wraps its `remoteBranchExists` call in a try/catch
that warns and returns `unknown`; since `remoteBranchExists` catches every git
failure itself and returns `false`, that handler is unreachable and has no
branch here.  A thrown error is `Except.error` (only the fetch-failure path
with no local branch throws); otherwise the result, the final ref store and
the emitted effects are returned. -/
def fetchRemoteBranch (branch : String) (dryRun : Bool) (env : FetchEnv) (st : GitState) :
    Except String (FetchRemoteBranchResult × GitState × List Eff) :=
  let normalized := normalizeBranchName branch
  let localExists := st.localHead.isSome
  if localExists then
    let remoteExists := remoteBranchExists env.lsRemote
    if !remoteExists then
      .ok (⟨.missing, localExists, none⟩, st, [])
    else if dryRun then
      .ok (⟨.exists, localExists, none⟩, st,
        [.logStep (wouldFetchStep normalized),
         .logDetail (dryRunFFDetail normalized),
         .logDetail dryRunDivergenceDetail])
    else
      match env.fetchResult with
      | .error e =>
        .ok (⟨.unknown, localExists, none⟩, st,
          [.logStep (fetchingStep normalized),
           .logWarn (fetchFailedWarn normalized (extractDiagnosticLine e))])
      | .ok _ =>
        let localHead := st.localHead
        let remoteHead := st.remoteTrackingHead
        if localHead = none || remoteHead = none || localHead = remoteHead then
          .ok (⟨.exists, localExists, none⟩, st, [.logStep (fetchingStep normalized)])
        else
          match env.aheadBehind with
          | .error e =>
            .ok (⟨.exists, localExists, none⟩, st,
              [.logStep (fetchingStep normalized),
               .logWarn (compareFailedWarn normalized (extractDiagnosticLine e))])
          | .ok (ahead, behind) =>
            if ahead = 0 && behind > 0 then
              match env.activeWorktree with
              | some activeWorktree =>
                .ok (⟨.exists, localExists, none⟩, st,
                  [.logStep (fetchingStep normalized),
                   .logWarn (checkedOutWarn normalized activeWorktree)])
              | none =>
                -- the guard above ensures both heads resolve; `getD ""` models
                -- the source's non-null narrowing of localHead/remoteHead
                .ok (⟨.exists, localExists, none⟩,
                  { st with localHead := st.remoteTrackingHead },
                  [.logStep (fetchingStep normalized),
                   .logDetail (ffDetailMsg normalized (localHead.getD "") (remoteHead.getD "")),
                   .logStep (ffStepMsg normalized),
                   .gitBranchForce normalized])
            else if ahead = 0 && behind = 0 then
              .ok (⟨.exists, localExists, none⟩, st,
                [.logStep (fetchingStep normalized), .logWarn (zeroZeroWarn normalized)])
            else if ahead > 0 && behind > 0 then
              .ok (⟨.diverged, localExists, some (ahead, behind)⟩, st,
                [.logStep (fetchingStep normalized)])
            else
              .ok (⟨.exists, localExists, none⟩, st,
                [.logStep (fetchingStep normalized),
                 .logWarn (aheadOnlyWarn normalized ahead)])
  else
    let remoteExists := remoteBranchExists env.lsRemote
    if !remoteExists then
      .ok (⟨.missing, localExists, none⟩, st, [])
    else if dryRun then
      .ok (⟨.exists, localExists, none⟩, st, [.logStep (wouldFetchStep normalized)])
    else
      match env.fetchResult with
      | .error e => .error (fatalFetchMessage normalized (extractDiagnosticLine e))
      | .ok _ => .ok (⟨.exists, localExists, none⟩, st, [.logStep (fetchingStep normalized)])

/-! ## JSON string quoting (JavaScript `JSON.stringify` on a string value) -/

def hexDigit (n : Nat) : Char := "0123456789abcdef".data.getD n '0'

def jsonEscapeChar (c : Char) : String :=
  if c = '"' then "\\\""
  else if c = '\\' then "\\\\"
  else if c = '\n' then "\\n"
  else if c = '\r' then "\\r"
  else if c = '\t' then "\\t"
  else if c = '\x08' then "\\b"
  else if c = '\x0c' then "\\f"
  else if c.toNat < 32 then "\\u00" ++ ⟨[hexDigit (c.toNat / 16), hexDigit (c.toNat % 16)]⟩
  else ⟨[c]⟩

/-- `JSON.stringify` applied to a string: quote it, escaping quotes,
backslashes and control characters. -/
def jsonStringify (s : String) : String :=
  "\"" ++ String.join (s.data.map jsonEscapeChar) ++ "\""

/-! ## src/worktree/destination-directory.ts -/

/-- The option bag of `handleExistingDirectory` (each flag's `?? false`
defaulting already applied). -/
structure HedOptions where
  dryRun : Bool
  assumeYes : Bool
  interactive : Bool
deriving DecidableEq

/-- The process environment and external-command outcomes one
`handleExistingDirectory` run observes: `fileExistsAns` is
`fileExists(destinationDirectory)`, `isTty` is `process.stdin.isTTY`, `ciVar`
is `process.env.CI`, `answer` is the reply typed at the confirmation prompt,
`worktreeList` is `git worktree list --porcelain`, `trashOutcome` is
`trash(destinationDirectory)`, `pruneOutcome` is `git worktree prune`, and
`resolvePath` is `path.resolve`. -/
structure HedEnv where
  fileExistsAns : Bool
  isTty : Bool
  ciVar : Option String
  answer : String
  worktreeList : Except String String
  trashOutcome : Except String Unit
  pruneOutcome : Except String Unit
  resolvePath : String → String

/-- How a `handleExistingDirectory` call ends: resolve `true` (proceed),
resolve `false` (dry-run refusals), or terminate the process
(`process.exit(0)` on decline, `exitWithMessage` = stderr + `process.exit(1)`
otherwise). -/
inductive HedOutcome
  | proceed
  | stop
  | exited (code : Nat) (message : String)
deriving DecidableEq

/-- Node's `path.basename` restricted to the use here: the last `/`-separated
segment. -/
def basename (p : String) : String := ((jsSplit p '/').getLast?).getD p

/-- One line of `git worktree list --porcelain`: when it starts with
`worktree `, the registered path (`line.replace(/^worktree\s+/u, "").trim()`). -/
def worktreeLinePath (line : String) : Option String :=
  if jsStartsWith "worktree " line then
    some (jsTrim ⟨(line.data.drop "worktree".data.length).dropWhile Char.isWhitespace⟩)
  else none

/-- The registration scan of `handleExistingDirectory`: whether some
`worktree <path>` line of the porcelain output resolves to the destination. -/
def registeredAtDestination (resolvePath : String → String) (porcelain dest : String) : Bool :=
  (jsSplit porcelain '\n').any fun line =>
    match worktreeLinePath line with
    | some p => resolvePath p = resolvePath dest
    | none => false

def dryCiWarn (d : String) : String :=
  "Dry run: directory '" ++ d ++
    "' already exists, and CI mode is enabled. Interactive prompts are disabled in CI. Re-run with --yes to move the directory to trash, or remove it manually."

def ciHintText (isCi : Bool) : String := if isCi then " (CI is enabled)" else ""

def dryNonInteractiveWarn (d : String) (isCi : Bool) : String :=
  "Dry run: directory '" ++ d ++ "' already exists" ++ ciHintText isCi ++
    ". Refusing to prompt in non-interactive mode. Re-run with --interactive to confirm, or --yes to move it to trash."

def dryNoTtyWarn (d : String) : String :=
  "Dry run: directory '" ++ d ++
    "' already exists, but stdin is not a TTY. Re-run with --yes to move it to trash, or remove it manually."

def dryWouldPromptStep (d : String) : String :=
  "Would prompt to move existing directory '" ++ d ++ "' to trash"

def dryWouldMoveStep (d : String) : String :=
  "Would move existing directory '" ++ d ++ "' to trash"

def ciExitMessage (d : String) : String :=
  "Directory '" ++ d ++
    "' already exists, and CI mode is enabled.\nInteractive prompts are disabled in CI.\nRe-run with --yes to move the directory to trash, or remove it manually."

def nonInteractiveExitMessage (d : String) (isCi : Bool) : String :=
  "Directory '" ++ d ++ "' already exists" ++ ciHintText isCi ++
    ".\nRefusing to prompt in non-interactive mode.\nRe-run with --interactive to confirm, or --yes to move it to trash."

def noTtyExitMessage (d : String) : String :=
  "Directory '" ++ d ++
    "' already exists, but stdin is not a TTY.\nRe-run with --yes to move it to trash, or remove it manually."

def confirmMessage (d : String) : String :=
  "Directory '" ++ d ++
    "' already exists. Move to trash and recreate? (You can restore it from your system trash if needed)"

def worktreeListFailedDetail (details : String) : String :=
  "Error checking for existing worktree registration: " ++ details

def movingToTrashStep (d : String) : String :=
  "Moving existing directory '" ++ d ++ "' to trash..."

def errorDetails (details : String) : String := "Error details: " ++ details

def trashFailedMessage (e : String) : String :=
  "Failed to move existing directory to trash: " ++ e

def pruningDetail (d : String) : String :=
  "Pruning stale worktree registration for '" ++ d ++ "'."

def pruneFailedMessage (d : String) : String :=
  "Failed to prune stale worktree registration for '" ++ d ++
    "'. Run 'git worktree prune' and retry."

/-- The real-run tail of `handleExistingDirectory` once confirmation has been
obtained (or `--yes` bypassed it): scan the worktree registry for a stale
registration of the destination, move the directory to trash (failure is
fatal), then prune the stale registration when one was found (failure is
fatal with a recovery hint).  `eff0` holds the effects of the confirmation
prompt, when one was shown. -/
def hedProceedPhase (destinationDirectory : String) (env : HedEnv) (directoryName : String)
    (eff0 : List Eff) : HedOutcome × List Eff :=
  let listPart : Bool × List Eff :=
    match env.worktreeList with
    | .ok out =>
      (registeredAtDestination env.resolvePath out destinationDirectory, [.gitWorktreeList])
    | .error e => (false, [.gitWorktreeList, .logDetail (worktreeListFailedDetail e)])
  let shouldPruneWorktree := listPart.1
  let eff1 := eff0 ++ listPart.2 ++
    [.logStep (movingToTrashStep directoryName), .trashDir destinationDirectory]
  match env.trashOutcome with
  | .error e =>
    (.exited 1 (trashFailedMessage e),
      eff1 ++ [.logDetail (errorDetails e), .consoleError (trashFailedMessage e)])
  | .ok _ =>
    let eff2 := eff1 ++ [.logSuccess "Directory moved to trash successfully"]
    if !shouldPruneWorktree then (.proceed, eff2)
    else
      let eff3 := eff2 ++ [.logDetail (pruningDetail directoryName), .gitWorktreePrune]
      match env.pruneOutcome with
      | .error e =>
        (.exited 1 (pruneFailedMessage directoryName),
          eff3 ++ [.logDetail (errorDetails e), .consoleError (pruneFailedMessage directoryName)])
      | .ok _ => (.proceed, eff3)

/-- `handleExistingDirectory` from src/worktree/destination-directory.ts:
return `proceed` at once when the destination does not exist; otherwise apply
the gating rules (CI, `--interactive`, TTY, confirmation — most specific
first), and on a confirmed real run hand over to `hedProceedPhase`. -/
def handleExistingDirectory (destinationDirectory : String) (options : HedOptions)
    (env : HedEnv) : HedOutcome × List Eff :=
  if !env.fileExistsAns then (.proceed, [])
  else
    let dryRun := options.dryRun
    let assumeYes := options.assumeYes
    let interactive := options.interactive
    let isTty := env.isTty
    let ciValue := env.ciVar.map jsToLower
    let isCi := ciValue = some "true" || ciValue = some "1"
    let directoryName := basename destinationDirectory
    if dryRun then
      if !assumeYes then
        if isCi && interactive && !isTty then (.stop, [.logWarn (dryCiWarn directoryName)])
        else if !interactive then
          (.stop, [.logWarn (dryNonInteractiveWarn directoryName isCi)])
        else if !isTty then (.stop, [.logWarn (dryNoTtyWarn directoryName)])
        else (.stop, [.logStep (dryWouldPromptStep directoryName)])
      else (.proceed, [.logStep (dryWouldMoveStep directoryName)])
    else if !assumeYes then
      if isCi && interactive && !isTty then
        (.exited 1 (ciExitMessage directoryName), [.consoleError (ciExitMessage directoryName)])
      else if !interactive then
        (.exited 1 (nonInteractiveExitMessage directoryName isCi),
          [.consoleError (nonInteractiveExitMessage directoryName isCi)])
      else if !isTty then
        (.exited 1 (noTtyExitMessage directoryName),
          [.consoleError (noTtyExitMessage directoryName)])
      else if !(confirmAccepts env.answer) then
        (.exited 0 "Operation cancelled.",
          [.confirmPrompt (confirmMessage directoryName), .consoleError "Operation cancelled."])
      else
        hedProceedPhase destinationDirectory env directoryName
          [.confirmPrompt (confirmMessage directoryName)]
    else hedProceedPhase destinationDirectory env directoryName []

/-! ## src/cli/cleanup-worktree.ts -/

def cleanupWarnMessage (destinationDirectory reason : String) : String :=
  "Cleaning up worktree at " ++ jsonStringify destinationDirectory ++ " " ++ reason ++ "."

def cleanupFailedWarn (destinationDirectory cleanupMessage : String) : String :=
  "Failed to clean up worktree at " ++ jsonStringify destinationDirectory ++ ": " ++
    cleanupMessage

/-- `cleanupWorktree`: warn (naming the destination and the reason), invoke
`git worktree remove --force -- <dir>` (`removeWorktree`), and swallow a
removal failure into a second warning. -/
def cleanupWorktreeEffs (destinationDirectory reason : String)
    (removeOutcome : Except String Unit) : List Eff :=
  [.logWarn (cleanupWarnMessage destinationDirectory reason),
   .removeWorktree destinationDirectory] ++
    match removeOutcome with
    | .ok _ => []
    | .error e => [.logWarn (cleanupFailedWarn destinationDirectory e)]

/-- `cleanupIfNeeded` from `runWorktreeAdd`: a no-op unless the worktree was
registered on a real run. -/
def cleanupIfNeeded (worktreeCreated dryRun : Bool) (destinationDirectory reason : String)
    (removeOutcome : Except String Unit) : List Eff :=
  if !worktreeCreated || dryRun then []
  else cleanupWorktreeEffs destinationDirectory reason removeOutcome

/-! ## src/cli/run-worktree-add.ts -/

/-- `quoteForShell`: wrap in single quotes, splicing embedded single quotes. -/
def quoteForShell (value : String) : String :=
  "'" ++ String.join (value.data.map fun c => if c = '\'' then "'\"'\"'" else ⟨[c]⟩) ++ "'"

def fetchExitMessage (branch e : String) : String :=
  let pre := "Failed to fetch origin/" ++ branch ++ ": "
  let failure := if jsStartsWith pre e then e else pre ++ e
  failure ++
    "\nIf you expected this to work, check your network/credentials and retry." ++
    "\nIf you want a new local branch from HEAD instead, pass --offline."

def unknownExitMessage (branch : String) : String :=
  "Could not reach origin to check whether '" ++ branch ++
    "' exists, and the branch does not exist locally.\nRefusing to create a new branch from HEAD in this ambiguous state.\nRe-run with --offline to force creating a new local '" ++
    branch ++ "' from the current HEAD."

def divergedExitMessage (branch : String) (ahead behind : Nat) : String :=
  "Local branch '" ++ branch ++ "' and origin/" ++ branch ++ " have diverged (ahead by " ++
    toString ahead ++ " and behind by " ++ toString behind ++
    ").\nThis can mean either a stale local branch-name collision or legitimate local commits plus new remote commits.\nRefusing to reuse the local branch automatically.\nNote: commands below use POSIX shell quoting. On Windows cmd.exe/PowerShell, adapt quoting for your shell.\nIf you want to keep local commits, use your local branch directly:\n  git worktree add -- <path> " ++
    quoteForShell branch ++ "\n  # or merge/rebase '" ++ branch ++ "' with origin/" ++ branch ++
    ", then retry.\nTo work on the remote branch, run:\n  git fetch origin --prune\n  # if '<branch>-old' already exists, pick a different archive name.\n  git branch -m -- " ++
    quoteForShell branch ++ " " ++ quoteForShell (branch ++ "-old") ++
    "\n  # or delete the stale local branch instead:\n  # git branch -D -- " ++
    quoteForShell branch ++ "\n  worktree-add -- " ++ quoteForShell branch

/-- How `runWorktreeAdd` ends: normal completion, a clean early return
(`shouldContinue` false), process termination (`process.exit` does not unwind
the try/catch/finally), or an exception propagated to the caller. -/
inductive RunOutcome
  | completed
  | stopped
  | exited (code : Nat) (message : String)
  | raised (message : String)
deriving DecidableEq

/-- The behavior of the orchestrator's collaborator calls in one run: `hed` is
the `handleExistingDirectory` call's outcome and effects, `fetch` the
`fetchRemoteBranch` result (or its thrown error), and the rest the outcomes of
`createWorktree`, `copyUntrackedFiles`, `setupProject`, `openWorktreeApps` and
of `removeWorktree` inside `cleanupWorktree`. -/
structure RunOracle where
  hed : HedOutcome × List Eff
  fetch : Except String FetchRemoteBranchResult
  createOutcome : Except String Unit
  copyOutcome : Except String Unit
  setupOutcome : Except String Unit
  openAppsOutcome : Except String Unit
  removeOutcome : Except String Unit

/-- The stages of `runWorktreeAdd` after the `createWorktree` call: copy
untracked files, set up the project, open the requested apps; any thrown
error is caught once, `cleanupIfNeeded "due to failure"` runs, and the error
is re-raised (the `finally` unregisters the SIGINT handler either way). -/
def runStagesAfterCreate (destinationDirectory : String) (dryRun worktreeCreated : Bool)
    (ro : RunOracle) (eff : List Eff) : RunOutcome × List Eff :=
  match ro.copyOutcome with
  | .error e =>
    (.raised e,
      eff ++ cleanupIfNeeded worktreeCreated dryRun destinationDirectory "due to failure"
        ro.removeOutcome ++ [.unregisterSigint])
  | .ok _ =>
    match ro.setupOutcome with
    | .error e =>
      (.raised e,
        eff ++ cleanupIfNeeded worktreeCreated dryRun destinationDirectory "due to failure"
          ro.removeOutcome ++ [.unregisterSigint])
    | .ok _ =>
      match ro.openAppsOutcome with
      | .error e =>
        (.raised e,
          eff ++ cleanupIfNeeded worktreeCreated dryRun destinationDirectory "due to failure"
            ro.removeOutcome ++ [.unregisterSigint])
      | .ok _ => (.completed, eff ++ [.unregisterSigint])

/-- `runWorktreeAdd` from src/cli/run-worktree-add.ts, starting after
`resolveWorktreeContext` (whose `branch` and `destinationDirectory` are the
first two arguments).  `worktreeCreated` flips exactly when the real-run
`createWorktree` call returns; the `exitWithMessage` paths terminate the
process (no catch, no finally), the exception paths run `cleanupIfNeeded`
then re-raise. -/
def runWorktreeAdd (branch destinationDirectory : String) (offline dryRun : Bool)
    (ro : RunOracle) : RunOutcome × List Eff :=
  let eff1 := [Eff.registerSigint] ++ ro.hed.2
  match ro.hed.1 with
  | .exited code msg => (.exited code msg, eff1)
  | .stop => (.stopped, eff1 ++ [.unregisterSigint])
  | .proceed =>
    match ro.fetch with
    | .error e =>
      (.exited 1 (fetchExitMessage branch e),
        eff1 ++ [.consoleError (fetchExitMessage branch e)])
    | .ok remoteStatus =>
      if remoteStatus.status = .unknown && !remoteStatus.localExists && !offline then
        (.exited 1 (unknownExitMessage branch),
          eff1 ++ [.consoleError (unknownExitMessage branch)])
      else if remoteStatus.status = .diverged then
        -- the diverged variant always carries its counts; `getD` models the
        -- source's type narrowing of `remoteStatus.divergence`
        let d := remoteStatus.divergence.getD (0, 0)
        (.exited 1 (divergedExitMessage branch d.1 d.2),
          eff1 ++ [.consoleError (divergedExitMessage branch d.1 d.2)])
      else if dryRun then
        -- dry-run `createWorktree` stops before the mutating git command
        runStagesAfterCreate destinationDirectory dryRun false ro eff1
      else
        match ro.createOutcome with
        | .error e =>
          (.raised e,
            eff1 ++ cleanupIfNeeded false dryRun destinationDirectory "due to failure"
              ro.removeOutcome ++ [.unregisterSigint])
        | .ok _ =>
          runStagesAfterCreate destinationDirectory dryRun true ro
            (eff1 ++ [.worktreeAdd destinationDirectory])

/-! ## src/cli/register-sigint-handler.ts -/

def sigintIncompleteMessage (destinationDirectory : String) : String :=
  "Worktree setup may be incomplete at " ++ jsonStringify destinationDirectory ++ "."

/-- The handler's `handled` guard flag (set before cleanup starts, so a SIGINT
delivered while cleanup is still running re-enters with `handled = true`). -/
structure SigintState where
  handled : Bool
deriving DecidableEq

/-- One invocation of the handler registered by `registerSigintHandler`:
when already handled, exit 130 at once; otherwise flip the flag, warn, run the
rollback callback (its effects are `cleanupEffs`), print the incompleteness
notice and exit 130. -/
def sigintHandler (destinationDirectory : String) (cleanupEffs : List Eff)
    (st : SigintState) : SigintState × List Eff :=
  if st.handled then (st, [.exitProcess 130])
  else
    (⟨true⟩,
      [.logWarn "Received SIGINT. Aborting."] ++ cleanupEffs ++
        [.consoleError (sigintIncompleteMessage destinationDirectory), .exitProcess 130])

deriving instance DecidableEq for Except

/-! ## Theorems -/

/-- Whether one of the four supported prefixes still heads the string. -/
def startsWithSupportedPrefix (s : String) : Bool :=
  jsStartsWith "refs/heads/" s || jsStartsWith "refs/remotes/origin/" s ||
    jsStartsWith "remotes/origin/" s || jsStartsWith "origin/" s

theorem stripLeading_of_not (p s : String) (h : jsStartsWith p s = false) :
    stripLeading p s = s := by
  unfold jsStartsWith at h
  simp [stripLeading, h]

theorem jsTrim_of_trimmed (s : String) (h : jsTrim s = s) : jsTrim (jsTrim s) = jsTrim s := by
  rw [h, h]

/-- C6 counterexample: stacking the supported prefixes out of stripping order
defeats idempotence.  `origin/refs/heads/foo` is built from the supported
prefixes `origin/` and `refs/heads/` around the base name `foo`, yet one
normalization yields `refs/heads/foo` and a second strips further to `foo`. -/
theorem normalizeBranchName_not_idempotent :
    normalizeBranchName (normalizeBranchName "origin/refs/heads/foo") ≠
      normalizeBranchName "origin/refs/heads/foo" := by decide

/-- C6 (amended): normalizeBranchName is idempotent on every input whose
normalization is already fully normalized — trimmed, with none of the four
supported prefixes left at its head.  In particular one supported prefix
around a trimmed prefix-free base normalizes idempotently; arbitrary prefix
combinations do not (see the counterexample). -/
theorem normalizeBranchName_idempotent_of_normalized (x : String)
    (htrim : jsTrim (normalizeBranchName x) = normalizeBranchName x)
    (hpre : startsWithSupportedPrefix (normalizeBranchName x) = false) :
    normalizeBranchName (normalizeBranchName x) = normalizeBranchName x := by
  set y := normalizeBranchName x with hy
  simp only [startsWithSupportedPrefix, Bool.or_eq_false_iff] at hpre
  obtain ⟨⟨⟨h1, h2⟩, h3⟩, h5⟩ := hpre
  rw [show normalizeBranchName y =
      stripLeading "origin/"
        (stripLeading "remotes/origin/"
          (stripLeading "refs/remotes/origin/" (stripLeading "refs/heads/" (jsTrim y))))
    from rfl]
  rw [htrim, stripLeading_of_not _ _ h1, stripLeading_of_not _ _ h2,
    stripLeading_of_not _ _ h3, stripLeading_of_not _ _ h5]

/-- C6 witness: a single supported prefix around the trimmed, prefix-free base
`foo` satisfies the amended idempotence statement's hypotheses. -/
theorem normalizeBranchName_idempotent_witness :
    normalizeBranchName (normalizeBranchName "refs/heads/foo") =
      normalizeBranchName "refs/heads/foo" :=
  normalizeBranchName_idempotent_of_normalized "refs/heads/foo" (by decide) (by decide)

/-- C10: the yes/no confirmation accepts exactly the answers whose trimmed,
lowercased form is "y" or "yes"; in particular the empty answer (just
pressing Enter) declines. -/
theorem confirmAccepts_spec :
    (∀ answer : String,
        confirmAccepts answer = true ↔
          (jsToLower (jsTrim answer) = "y" ∨ jsToLower (jsTrim answer) = "yes")) ∧
      confirmAccepts "" = false := by
  constructor
  · intro answer
    simp [confirmAccepts]
  · decide

/-- C9: an explicit `--app ""` with no non-empty values resolves to no apps at
all, even when the environment fallback is set; with `--app` entirely absent,
the environment value `"a,,b,a"` resolves to exactly `["a", "b"]` (empty
entries dropped, duplicates collapsed, first occurrences kept in order). -/
theorem resolveApps_spec :
    (∀ (opts : List String) (env : Option String),
        "" ∈ opts →
        (opts.map jsTrim).filter (fun app => app ≠ "") = [] →
        resolveApps (some opts) env = []) ∧
      resolveApps none (some "a,,b,a") = ["a", "b"] := by
  constructor
  · intro opts env h1 h2
    simp only [ne_eq, decide_not] at h2
    simp [resolveApps, h1, h2]
  · decide

/-- C9 witness: `--app ""` beats the environment variable `"a,b"`. -/
theorem resolveApps_spec_witness : resolveApps (some [""]) (some "a,b") = [] :=
  resolveApps_spec.1 [""] (some "a,b") (by simp) (by decide)

/-- C2: with a local branch present, a successful fetch, and computed counts
ahead > 0 and behind > 0, classification returns exactly
`{status: diverged, localExists: true, divergence: {ahead, behind}}`, the ref
store is unchanged (no fast-forward), and the only effect is the fetch step —
no warning of any kind (in particular no "keeping local" warning) and no
`git branch -f`. -/
theorem fetchRemoteBranch_diverged_no_mutation
    (branch lh rh : String) (env : FetchEnv) (ahead behind : Nat)
    (hheads : lh ≠ rh)
    (hremote : remoteBranchExists env.lsRemote = true)
    (hfetch : env.fetchResult = Except.ok ())
    (hcounts : env.aheadBehind = Except.ok (ahead, behind))
    (ha : 0 < ahead) (hb : 0 < behind) :
    fetchRemoteBranch branch false env ⟨some lh, some rh⟩ =
      Except.ok (⟨.diverged, true, some (ahead, behind)⟩, ⟨some lh, some rh⟩,
        [Eff.logStep (fetchingStep (normalizeBranchName branch))]) := by
  have ha' : ahead ≠ 0 := Nat.pos_iff_ne_zero.mp ha
  have hb' : behind ≠ 0 := Nat.pos_iff_ne_zero.mp hb
  simp [fetchRemoteBranch, hremote, hfetch, hcounts, hheads, ha', hb', ha, hb]

def envDiverged : FetchEnv := ⟨.ok "refhash", .ok (), .ok (15, 1), none⟩

/-- C2 witness: the fixture of the spec — heads differ, rev-list reports 15/1. -/
theorem fetchRemoteBranch_diverged_witness :
    fetchRemoteBranch "topic" false envDiverged ⟨some "a", some "b"⟩ =
      Except.ok (⟨.diverged, true, some (15, 1)⟩, ⟨some "a", some "b"⟩,
        [Eff.logStep (fetchingStep (normalizeBranchName "topic"))]) :=
  fetchRemoteBranch_diverged_no_mutation "topic" "a" "b" envDiverged 15 1 (by decide)
    (by decide) rfl rfl (by decide) (by decide)

/-- C3: with a local branch present, a successful fetch and counts ahead = 0,
behind > 0, a real run fast-forwards the local ref to the remote-tracking ref
(they are equal afterward) and returns Exists — unless the branch is checked
out in another worktree, in which case the ref is kept unchanged, a warning is
emitted and Exists is still returned. -/
theorem fetchRemoteBranch_fast_forward
    (branch lh rh : String) (env : FetchEnv) (behind : Nat)
    (hheads : lh ≠ rh)
    (hremote : remoteBranchExists env.lsRemote = true)
    (hfetch : env.fetchResult = Except.ok ())
    (hcounts : env.aheadBehind = Except.ok (0, behind))
    (hb : 0 < behind) :
    (env.activeWorktree = none →
        fetchRemoteBranch branch false env ⟨some lh, some rh⟩ =
          Except.ok (⟨.exists, true, none⟩, ⟨some rh, some rh⟩,
            [Eff.logStep (fetchingStep (normalizeBranchName branch)),
             Eff.logDetail (ffDetailMsg (normalizeBranchName branch) lh rh),
             Eff.logStep (ffStepMsg (normalizeBranchName branch)),
             Eff.gitBranchForce (normalizeBranchName branch)])) ∧
      ∀ wt, env.activeWorktree = some wt →
        fetchRemoteBranch branch false env ⟨some lh, some rh⟩ =
          Except.ok (⟨.exists, true, none⟩, ⟨some lh, some rh⟩,
            [Eff.logStep (fetchingStep (normalizeBranchName branch)),
             Eff.logWarn (checkedOutWarn (normalizeBranchName branch) wt)]) := by
  constructor
  · intro hwt
    simp [fetchRemoteBranch, hremote, hfetch, hcounts, hheads, hb, hwt]
  · intro wt hwt
    simp [fetchRemoteBranch, hremote, hfetch, hcounts, hheads, hb, hwt]

def envFastForward : FetchEnv := ⟨.ok "refhash", .ok (), .ok (0, 2), none⟩

/-- C3 witness: local strictly behind by 2, branch not checked out elsewhere:
the local head becomes the remote head. -/
theorem fetchRemoteBranch_fast_forward_witness :
    fetchRemoteBranch "topic" false envFastForward ⟨some "a", some "b"⟩ =
      Except.ok (⟨.exists, true, none⟩, ⟨some "b", some "b"⟩,
        [Eff.logStep (fetchingStep (normalizeBranchName "topic")),
         Eff.logDetail (ffDetailMsg (normalizeBranchName "topic") "a" "b"),
         Eff.logStep (ffStepMsg (normalizeBranchName "topic")),
         Eff.gitBranchForce (normalizeBranchName "topic")]) :=
  (fetchRemoteBranch_fast_forward "topic" "a" "b" envFastForward 2 (by decide)
    (by decide) rfl rfl (by decide)).1 rfl

def envQueryFailure : FetchEnv :=
  ⟨.error "fatal: unable to access remote", .ok (), .ok (0, 0), none⟩

def roQueryFailure : RunOracle :=
  ⟨(.proceed, []), .ok ⟨.missing, false, none⟩, .ok (), .ok (), .ok (), .ok (), .ok ()⟩

/-- C4 (evaluating the code at the failing input): when the remote-existence
query's underlying command errors, `remoteBranchExists` swallows the failure
into `false`, so classification returns Missing — not Unknown, with no
warning — whether or not a local branch exists; and with no local branch the
orchestrator then proceeds all the way to creating the worktree from HEAD
(the `--offline` refusal never fires, because it is guarded on the
unreachable Unknown status). -/
theorem fetchRemoteBranch_query_failure_returns_missing :
    fetchRemoteBranch "feature" false envQueryFailure ⟨some "abc", none⟩ =
        Except.ok (⟨.missing, true, none⟩, ⟨some "abc", none⟩, []) ∧
      fetchRemoteBranch "feature" false envQueryFailure ⟨none, none⟩ =
        Except.ok (⟨.missing, false, none⟩, ⟨none, none⟩, []) ∧
      runWorktreeAdd "feature" "/repo/feature" false false roQueryFailure =
        (.completed,
          [.registerSigint, .worktreeAdd "/repo/feature", .unregisterSigint]) := by
  refine ⟨by decide, by decide, by decide⟩

theorem hedProceedPhase_spec (dest : String) (env : HedEnv) (dn : String) (eff0 : List Eff)
    (h0 : ∀ p, Eff.trashDir p ∉ eff0 ∧ Eff.removeWorktree p ∉ eff0 ∧
      Eff.worktreeAdd p ∉ eff0) :
    Eff.trashDir dest ∈ (hedProceedPhase dest env dn eff0).2 ∧
      (∀ p, Eff.removeWorktree p ∉ (hedProceedPhase dest env dn eff0).2 ∧
        Eff.worktreeAdd p ∉ (hedProceedPhase dest env dn eff0).2 ∧
        (Eff.trashDir p ∈ (hedProceedPhase dest env dn eff0).2 → p = dest)) ∧
      (∀ e, env.trashOutcome = .error e →
        (hedProceedPhase dest env dn eff0).1 = .exited 1 (trashFailedMessage e)) ∧
      (env.trashOutcome = .ok () →
        ∀ porcelain, env.worktreeList = .ok porcelain →
          registeredAtDestination env.resolvePath porcelain dest = true →
          (env.pruneOutcome = .ok () →
            (hedProceedPhase dest env dn eff0).1 = .proceed ∧
            ∃ pre, (hedProceedPhase dest env dn eff0).2 = pre ++
              [.logStep (movingToTrashStep dn), .trashDir dest,
               .logSuccess "Directory moved to trash successfully",
               .logDetail (pruningDetail dn), .gitWorktreePrune]) ∧
          (∀ e, env.pruneOutcome = .error e →
            (hedProceedPhase dest env dn eff0).1 =
              .exited 1 (pruneFailedMessage dn))) := by
  rcases hwl : env.worktreeList with porcelain | e₁ <;>
    rcases htr : env.trashOutcome with u | e₂ <;>
      rcases hpr : env.pruneOutcome with u' | e₃ <;>
        refine ⟨?_, ?_, ?_, ?_⟩ <;>
          simp only [hedProceedPhase, hwl, htr, hpr] <;>
            first
              | (split <;> simp_all [h0])
              | simp_all [h0]
  all_goals exact ⟨eff0 ++ [Eff.gitWorktreeList], by simp⟩

/-- C5: once destination-conflict resolution proceeds past confirmation on a
real run against an existing destination (`--yes`, or an interactive TTY
confirmation), the destination is handed to the trash move and nothing else:
the only trash target is the destination, and no permanently destructive
effect (`git worktree remove --force`, `git worktree add`) is ever emitted.
A trash failure terminates the run fatally (exit 1) before any worktree is
created; when the path was a registered worktree of the repository the stale
registration is pruned after the move, and a prune failure is fatal with the
recovery hint naming `git worktree prune`. -/
theorem handleExistingDirectory_trash_safety
    (dest : String) (options : HedOptions) (env : HedEnv)
    (hfile : env.fileExistsAns = true)
    (hdry : options.dryRun = false)
    (hpast : options.assumeYes = true ∨
      (options.interactive = true ∧ env.isTty = true ∧ confirmAccepts env.answer = true)) :
    Eff.trashDir dest ∈ (handleExistingDirectory dest options env).2 ∧
      (∀ p, Eff.removeWorktree p ∉ (handleExistingDirectory dest options env).2 ∧
        Eff.worktreeAdd p ∉ (handleExistingDirectory dest options env).2 ∧
        (Eff.trashDir p ∈ (handleExistingDirectory dest options env).2 → p = dest)) ∧
      (∀ e, env.trashOutcome = .error e →
        (handleExistingDirectory dest options env).1 = .exited 1 (trashFailedMessage e) ∧
        ∀ (branch : String) (offline : Bool) (ro : RunOracle),
          ro.hed = handleExistingDirectory dest options env →
          Eff.worktreeAdd dest ∉ (runWorktreeAdd branch dest offline false ro).2) ∧
      (env.trashOutcome = .ok () →
        ∀ porcelain, env.worktreeList = .ok porcelain →
          registeredAtDestination env.resolvePath porcelain dest = true →
          (env.pruneOutcome = .ok () →
            (handleExistingDirectory dest options env).1 = .proceed ∧
            ∃ pre, (handleExistingDirectory dest options env).2 = pre ++
              [.logStep (movingToTrashStep (basename dest)), .trashDir dest,
               .logSuccess "Directory moved to trash successfully",
               .logDetail (pruningDetail (basename dest)), .gitWorktreePrune]) ∧
          (∀ e, env.pruneOutcome = .error e →
            (handleExistingDirectory dest options env).1 =
              .exited 1 (pruneFailedMessage (basename dest)))) := by
  have hred : ∃ eff0 : List Eff,
      (∀ p, Eff.trashDir p ∉ eff0 ∧ Eff.removeWorktree p ∉ eff0 ∧
        Eff.worktreeAdd p ∉ eff0) ∧
      handleExistingDirectory dest options env = hedProceedPhase dest env (basename dest) eff0 := by
    by_cases hy : options.assumeYes = true
    · exact ⟨[], by simp, by simp [handleExistingDirectory, hfile, hdry, hy]⟩
    · rcases hpast with hy' | ⟨hint, htty, hans⟩
      · exact absurd hy' hy
      · have hy'' : options.assumeYes = false := by
          revert hy; cases options.assumeYes <;> simp
        exact ⟨[.confirmPrompt (confirmMessage (basename dest))], by simp,
          by simp [handleExistingDirectory, hfile, hdry, hy'', hint, htty, hans]⟩
  obtain ⟨eff0, h0, heq⟩ := hred
  rw [heq]
  have hmain := hedProceedPhase_spec dest env (basename dest) eff0 h0
  refine ⟨hmain.1, hmain.2.1, ?_, hmain.2.2.2⟩
  intro e he
  refine ⟨hmain.2.2.1 e he, ?_⟩
  intro branch offline ro hro
  have h1 : ro.hed.1 = .exited 1 (trashFailedMessage e) := by
    rw [hro]; exact hmain.2.2.1 e he
  have h2 : ∀ p, Eff.worktreeAdd p ∉ ro.hed.2 := by
    rw [hro]; intro p; exact (hmain.2.1 p).2.1
  simp [runWorktreeAdd, h1, h2]

def envTrashSafety : HedEnv :=
  ⟨true, false, none, "", .ok "worktree /repo/wt", .ok (), .ok (), fun s => s⟩

/-- C5 witness: a `--yes` real run against an existing destination invokes the
trash move on it. -/
theorem handleExistingDirectory_trash_safety_witness :
    Eff.trashDir "/repo/wt" ∈
      (handleExistingDirectory "/repo/wt" ⟨false, true, false⟩ envTrashSafety).2 :=
  (handleExistingDirectory_trash_safety "/repo/wt" ⟨false, true, false⟩ envTrashSafety
    rfl rfl (Or.inl rfl)).1

/-- C7: when the destination exists on a real interactive run and the user
declines the confirmation, the run terminates with exit status 0 through
"Operation cancelled." (the user-cancelled code, not the general-failure
code 1), and the only effects are the prompt and that message — the existing
directory is neither trashed nor otherwise touched. -/
theorem handleExistingDirectory_decline
    (dest : String) (options : HedOptions) (env : HedEnv)
    (hfile : env.fileExistsAns = true)
    (hdry : options.dryRun = false)
    (hyes : options.assumeYes = false)
    (hint : options.interactive = true)
    (htty : env.isTty = true)
    (hans : confirmAccepts env.answer = false) :
    handleExistingDirectory dest options env =
      (.exited 0 "Operation cancelled.",
        [.confirmPrompt (confirmMessage (basename dest)),
         .consoleError "Operation cancelled."]) := by
  simp [handleExistingDirectory, hfile, hdry, hyes, hint, htty, hans]

def envDecline : HedEnv :=
  ⟨true, true, none, "n", .ok "", .ok (), .ok (), fun s => s⟩

/-- C7 witness: answering "n" at the prompt cancels with exit status 0 and no
trash move. -/
theorem handleExistingDirectory_decline_witness :
    handleExistingDirectory "/repo/wt" ⟨false, false, true⟩ envDecline =
      (.exited 0 "Operation cancelled.",
        [.confirmPrompt (confirmMessage (basename "/repo/wt")),
         .consoleError "Operation cancelled."]) :=
  handleExistingDirectory_decline "/repo/wt" ⟨false, false, true⟩ envDecline
    rfl rfl rfl rfl rfl (by decide)

theorem runWorktreeAdd_raised_shape (branch dest : String) (offline : Bool) (ro : RunOracle)
    (e : String) (h : (runWorktreeAdd branch dest offline false ro).1 = .raised e) :
    (ro.createOutcome = .error e ∧
      (runWorktreeAdd branch dest offline false ro).2 =
        Eff.registerSigint :: (ro.hed.2 ++ [Eff.unregisterSigint])) ∨
    ((runWorktreeAdd branch dest offline false ro).2 =
        ((Eff.registerSigint :: ro.hed.2) ++ [Eff.worktreeAdd dest]) ++
          cleanupIfNeeded true false dest "due to failure" ro.removeOutcome ++
          [Eff.unregisterSigint]) := by
  cases hv : ro.hed.1 <;> simp only [runWorktreeAdd, hv] at h ⊢
  case stop => simp at h
  case exited => simp at h
  case proceed =>
    rcases hf : ro.fetch with fe | fr <;> simp only [hf] at h ⊢
    · simp at h
    · split at h
      · simp at h
      · split at h
        · simp at h
        · rw [if_neg (by assumption), if_neg (by assumption)]
          rcases hc : ro.createOutcome with ce | cu <;> simp only [hc] at h ⊢
          · left
            simp only [cleanupIfNeeded] at h ⊢
            simp at h
            simp [h]
          · right
            rcases hcp : ro.copyOutcome with pe | pu <;>
              rcases hsu : ro.setupOutcome with se | su <;>
                rcases hop : ro.openAppsOutcome with oe | ou <;>
                  simp only [runStagesAfterCreate, hcp, hsu, hop] at h ⊢ <;>
                    first
                      | (exfalso; revert h; simp; done)
                      | simp

/-- C1: on a non-dry orchestrator run, when an exception propagates to the
caller, worktree removal has been invoked on the destination together with the
warning naming the path and the reason exactly when the worktree-add command
had already succeeded; an exception raised strictly before registration causes
no removal attempt.  The hypothesis says only that the destination-conflict
stage does not itself register or remove worktrees, which holds of the real
`handleExistingDirectory` (`handleExistingDirectory_trash_safety`). -/
theorem runWorktreeAdd_rollback
    (branch dest : String) (offline : Bool) (ro : RunOracle)
    (hhed : ∀ p, Eff.worktreeAdd p ∉ ro.hed.2 ∧ Eff.removeWorktree p ∉ ro.hed.2) :
    ∀ e, (runWorktreeAdd branch dest offline false ro).1 = .raised e →
      ((Eff.worktreeAdd dest ∈ (runWorktreeAdd branch dest offline false ro).2 →
          Eff.removeWorktree dest ∈ (runWorktreeAdd branch dest offline false ro).2 ∧
          Eff.logWarn (cleanupWarnMessage dest "due to failure") ∈
            (runWorktreeAdd branch dest offline false ro).2) ∧
        (Eff.worktreeAdd dest ∉ (runWorktreeAdd branch dest offline false ro).2 →
          ∀ p, Eff.removeWorktree p ∉ (runWorktreeAdd branch dest offline false ro).2)) := by
  intro e hraised
  have h1 : ∀ p, Eff.worktreeAdd p ∉ ro.hed.2 := fun p => (hhed p).1
  have h2 : ∀ p, Eff.removeWorktree p ∉ ro.hed.2 := fun p => (hhed p).2
  rcases runWorktreeAdd_raised_shape branch dest offline ro e hraised with ⟨hc, htr⟩ | htr
  · rw [htr]
    constructor
    · intro hmem
      exfalso
      revert hmem
      simp [h1]
    · intro _ p
      simp [h2]
  · rw [htr]
    constructor
    · intro _
      constructor <;> simp [cleanupIfNeeded, cleanupWorktreeEffs]
    · intro hmem
      exfalso
      apply hmem
      simp

def roRollback : RunOracle :=
  ⟨(.proceed, []), .ok ⟨.exists, true, none⟩, .ok (), .error "copy failed", .ok (), .ok (),
    .ok ()⟩

/-- C1 witness: a copy failure right after a successful real-run worktree-add
leads to removal of the destination plus the warning before the error
propagates. -/
theorem runWorktreeAdd_rollback_witness :
    Eff.removeWorktree "/repo/wt" ∈
        (runWorktreeAdd "topic" "/repo/wt" false false roRollback).2 ∧
      Eff.logWarn (cleanupWarnMessage "/repo/wt" "due to failure") ∈
        (runWorktreeAdd "topic" "/repo/wt" false false roRollback).2 :=
  (runWorktreeAdd_rollback "topic" "/repo/wt" false roRollback (by simp [roRollback])
    "copy failed" (by decide)).1 (by decide)

/-- C8: the SIGINT handler is idempotent.  The first interrupt sets the
`handled` flag, runs the rollback cleanup exactly once and exits with the
reserved status 130; an interrupt arriving after the flag flipped (in
particular while cleanup is still running) exits immediately with the same
status 130 without re-running cleanup; and 130 differs from the success code 0
and the general-failure code 1. -/
theorem sigintHandler_idempotent (dest : String) (cleanupEffs : List Eff) :
    (sigintHandler dest cleanupEffs ⟨false⟩ =
        (⟨true⟩,
          [.logWarn "Received SIGINT. Aborting."] ++ cleanupEffs ++
            [.consoleError (sigintIncompleteMessage dest), .exitProcess 130])) ∧
      sigintHandler dest cleanupEffs (sigintHandler dest cleanupEffs ⟨false⟩).1 =
        ((sigintHandler dest cleanupEffs ⟨false⟩).1, [.exitProcess 130]) ∧
      (130 : Nat) ≠ 0 ∧ (130 : Nat) ≠ 1 :=
  ⟨rfl, rfl, by decide, by decide⟩

end WorktreeAdd
